import Mathlib

/-!
Shallow embedding of `scripts/check_duplicates.py`: a diagnostic script that
scans JSON files for object literals containing duplicate keys.

The script reads each file, then calls `json.loads(content,
object_pairs_hook=parse_object)`.  The hook receives, for every JSON object
literal in the document (at any nesting depth, innermost first), the ordered
list of (key, decoded value) pairs; it counts key occurrences with
`collections.Counter`, prints a report when some key occurs more than once,
and returns `dict(pairs)` so that decoding of enclosing structures continues.

We embed:
  * `PyVal` — Python values produced by the decoder;
  * `RawJson` — the parse tree of a syntactically valid JSON document, with
    object literals keeping their ordered pair list (duplicates retained);
  * `parse_object` — the hook, returning the lines it prints and `dict(pairs)`;
  * `runHook` — the decoding traversal of `json.loads` with the hook installed,
    invoking the hook once per object literal, innermost first;
  * `FileOutcome` — the result of opening/decoding a path and of `json.loads`
    on its content, abstracting the file system and the syntactic layer of the
    standard JSON parser (both external to the repository): a path either
    fails to open/decode (`readError`, an `OSError`/`UnicodeDecodeError`
    raised at the `open`/`read` lines), or reads fine but its content is not
    valid JSON (`parseError`, an exception raised by `json.loads`), or parses
    to a `RawJson` document;
  * `find_duplicate_keys` — the per-file scan, returning the lines it prints
    and the exception it raises, if any.  Faithful to the source, the
    `open`/`read` step at lines 8-9 is OUTSIDE the `try` block of lines
    21-24, so a `readError` propagates to the caller while a `parseError`
    is caught and reported;
  * `processFiles` / `mainRun` — the `__main__` block: usage check, then the
    sequential loop over the file arguments.  An uncaught exception
    terminates a Python process with exit status 1.
-/

namespace CheckDuplicates

/-- A Python value as produced by the JSON decoder (`None`, `bool`, number,
string, `list`, `dict`).  Numbers are modelled as integers; the scan never
inspects numeric values. -/
inductive PyVal where
  | none
  | bool (b : Bool)
  | num (n : Int)
  | str (s : String)
  | list (elems : List PyVal)
  | dict (pairs : List (String × PyVal))

/-- Parse tree of a syntactically valid JSON document.  An object literal
keeps the ordered sequence of its (key, value) pairs exactly as written,
duplicates retained — this is what `json.loads` hands to the
`object_pairs_hook`, pair by pair, before any duplicate collapsing. -/
inductive RawJson where
  | null
  | bool (b : Bool)
  | num (n : Int)
  | str (s : String)
  | arr (elems : List RawJson)
  | obj (pairs : List (String × RawJson))

/-- First-appearance deduplication of a key list: the distinct keys in the
order in which each first occurs.  This is the iteration order of a Python
`collections.Counter` (and of a `dict`) built by inserting the keys in
order, since both preserve insertion order. -/
def firstDedup : List String → List String
  | [] => []
  | k :: ks => k :: (firstDedup ks).filter (fun x => decide (x ≠ k))

/-- `collections.Counter(keys).items()`: each distinct key paired with its
multiplicity, listed in first-appearance (insertion) order. -/
def counterItems (keys : List String) : List (String × Nat) :=
  (firstDedup keys).map (fun k => (k, keys.count k))

/-- The list comprehension `[k for k, v in counts.items() if v > 1]` of the
hook: the distinct keys occurring more than once, in first-appearance
order. -/
def duplicatesOf (keys : List String) : List String :=
  ((counterItems keys).filter (fun kv => decide (1 < kv.2))).map Prod.fst

/-- One insertion step of Python `dict` construction: if the key is already
present its value is overwritten in place (the key keeps its original
position), otherwise the pair is appended. -/
def dictInsert (d : List (String × PyVal)) (k : String) (v : PyVal) :
    List (String × PyVal) :=
  if d.any (fun kv => decide (kv.1 = k)) then
    d.map (fun kv => if kv.1 = k then (k, v) else kv)
  else
    d ++ [(k, v)]

/-- `dict(pairs)`: insert the pairs left to right into an initially empty
dict, so a later occurrence of a key overwrites the value of an earlier
one (last write wins). -/
def pyDict (pairs : List (String × PyVal)) : List (String × PyVal) :=
  pairs.foldl (fun d kv => dictInsert d kv.1 kv.2) []

/-- The `object_pairs_hook` `parse_object` of `find_duplicate_keys`: from the
ordered pair list of one object literal it takes the keys, counts them with
`Counter`, collects the keys counted more than once, prints the two report
lines when that list is non-empty, and returns `dict(pairs)`.  Result: the
printed lines, and the returned dict. -/
def parse_object (json_file : String) (pairs : List (String × PyVal)) :
    List String × List (String × PyVal) :=
  let keys := pairs.map Prod.fst
  let duplicates := duplicatesOf keys
  (if duplicates.isEmpty then []
   else [s!"File: {json_file}",
         s!"Found duplicate keys in an object: {duplicates}"],
   pyDict pairs)

mutual

/-- The decoding traversal performed by
`json.loads(content, object_pairs_hook=parse_object)` on a syntactically
valid document: values are decoded bottom-up, and the hook is invoked once
per object literal — on its fully decoded pair list — innermost objects
first, siblings in textual order.  Result: the lines printed by all hook
invocations, in order, and the decoded Python value. -/
def runHook (json_file : String) : RawJson → List String × PyVal
  | .null => ([], .none)
  | .bool b => ([], .bool b)
  | .num n => ([], .num n)
  | .str s => ([], .str s)
  | .arr xs =>
    let r := runHookList json_file xs
    (r.1, .list r.2)
  | .obj ps =>
    let r := runHookPairs json_file ps
    let h := parse_object json_file r.2
    (r.1 ++ h.1, .dict h.2)

/-- Decode the elements of a JSON array in order. -/
def runHookList (json_file : String) : List RawJson → List String × List PyVal
  | [] => ([], [])
  | x :: xs =>
    let r := runHook json_file x
    let rs := runHookList json_file xs
    (r.1 ++ rs.1, r.2 :: rs.2)

/-- Decode the values of an object literal's pair list in order. -/
def runHookPairs (json_file : String) :
    List (String × RawJson) → List String × List (String × PyVal)
  | [] => ([], [])
  | kv :: xs =>
    let r := runHook json_file kv.2
    let rs := runHookPairs json_file xs
    (r.1 ++ rs.1, (kv.1, r.2) :: rs.2)

end

/-- Outcome of processing one path, abstracting the file system and the
syntactic layer of the standard JSON parser (both external to the
repository): opening or decoding the file raises (`readError`), or the
content is read but `json.loads` raises on it (`parseError`), or the
content parses to a document. -/
inductive FileOutcome where
  | readError (msg : String)
  | parseError (msg : String)
  | parsed (doc : RawJson)

/-- An environment: what the file system and JSON syntax yield for each
path. -/
def Env : Type := String → FileOutcome

/-- `find_duplicate_keys(json_file)`: print the progress line, open and read
the file (OUTSIDE any `try`: a read failure propagates), then run
`json.loads` with the hook inside `try`, catching any parsing exception and
printing the error line.  Result: the lines printed, and `some msg` when an
exception propagates to the caller. -/
def find_duplicate_keys (env : Env) (json_file : String) :
    List String × Option String :=
  let progress := s!"Checking {json_file}..."
  match env json_file with
  | .readError msg => ([progress], some msg)
  | .parseError msg => ([progress, s!"Error parsing {json_file}: {msg}"], none)
  | .parsed doc => (progress :: (runHook json_file doc).1, none)

/-- The `for arg in sys.argv[1:]` loop: call `find_duplicate_keys` on each
argument in order.  An uncaught exception aborts the loop and terminates
the Python process with exit status 1; otherwise the loop runs to the end
and the process exits with status 0.  Result: the lines printed and the
process exit status. -/
def processFiles (env : Env) : List String → List String × Nat
  | [] => ([], 0)
  | a :: rest =>
    let r := find_duplicate_keys env a
    match r.2 with
    | some _ => (r.1, 1)
    | none =>
      let rs := processFiles env rest
      (r.1 ++ rs.1, rs.2)

/-- The usage message printed when no file argument is supplied. -/
def usageLine : String :=
  "Usage: python check_duplicates.py <json_file> [json_file2 ...]"

/-- The `__main__` block: with no file arguments (`len(sys.argv) < 2`) print
the usage message and exit with status 1; otherwise process the arguments
in order.  `args` is `sys.argv[1:]`.  Result: the lines printed and the
process exit status. -/
def mainRun (env : Env) (args : List String) : List String × Nat :=
  if args.isEmpty then ([usageLine], 1)
  else processFiles env args

/-- Observation function for association lists: the value attached to the
first pair whose key is `k`, if any.  Used to state the last-write-wins
property of `dict(pairs)`. -/
def lookupKey (k : String) : List (String × PyVal) → Option PyVal
  | [] => Option.none
  | kv :: rest => if kv.1 = k then some kv.2 else lookupKey k rest

/-! ### Helper lemmas about `firstDedup`, `counterItems` and `duplicatesOf` -/

theorem mem_firstDedup {k : String} : ∀ {keys : List String},
    k ∈ firstDedup keys ↔ k ∈ keys := by
  intro keys
  induction keys with
  | nil => simp [firstDedup]
  | cons a ks ih =>
    by_cases h : k = a
    · subst h; simp [firstDedup]
    · simp [firstDedup, List.mem_filter, ih, h]

theorem nodup_firstDedup : ∀ keys : List String, (firstDedup keys).Nodup := by
  intro keys
  induction keys with
  | nil => simp [firstDedup]
  | cons a ks ih =>
    refine List.Pairwise.cons ?_ (List.Nodup.filter _ ih)
    intro b hb
    have hba : b ≠ a := by simpa using List.of_mem_filter hb
    exact fun hab => hba hab.symm

theorem pairwise_indexOf_firstDedup :
    ∀ keys : List String,
      (firstDedup keys).Pairwise (fun a b => keys.indexOf a < keys.indexOf b) := by
  intro keys
  induction keys with
  | nil => simp [firstDedup]
  | cons k ks ih =>
    rw [firstDedup]
    refine List.pairwise_cons.mpr ⟨?_, ?_⟩
    · intro b hb
      have hbk : b ≠ k := by simpa using List.of_mem_filter hb
      rw [List.indexOf_cons_self, List.indexOf_cons_ne ks (Ne.symm hbk)]
      exact Nat.succ_pos _
    · refine (List.Pairwise.filter _ ih).imp_of_mem ?_
      intro a b ha hb hab
      have hak : a ≠ k := by simpa using List.of_mem_filter ha
      have hbk : b ≠ k := by simpa using List.of_mem_filter hb
      rw [List.indexOf_cons_ne ks (Ne.symm hak), List.indexOf_cons_ne ks (Ne.symm hbk)]
      exact Nat.succ_lt_succ hab

theorem filter_map_count (keys : List String) :
    ∀ l : List String,
      ((l.map (fun k => (k, keys.count k))).filter
          (fun kv => decide (1 < kv.2))).map Prod.fst
        = l.filter (fun k => decide (1 < keys.count k)) := by
  intro l
  induction l with
  | nil => rfl
  | cons a l ih =>
    by_cases h : 1 < keys.count a <;> simp [List.filter_cons, h, ih]

theorem duplicatesOf_eq_filter (keys : List String) :
    duplicatesOf keys
      = (firstDedup keys).filter (fun k => decide (1 < keys.count k)) := by
  unfold duplicatesOf counterItems
  exact filter_map_count keys (firstDedup keys)

theorem mem_duplicatesOf {k : String} {keys : List String} :
    k ∈ duplicatesOf keys ↔ 1 < keys.count k := by
  rw [duplicatesOf_eq_filter, List.mem_filter, mem_firstDedup]
  constructor
  · rintro ⟨-, h⟩
    simpa using h
  · intro h
    exact ⟨List.count_pos_iff.mp (Nat.lt_trans Nat.zero_lt_one h), by simpa using h⟩

theorem nodup_duplicatesOf (keys : List String) : (duplicatesOf keys).Nodup := by
  rw [duplicatesOf_eq_filter]
  exact List.Nodup.filter _ (nodup_firstDedup keys)

theorem duplicatesOf_eq_nil_of_nodup {keys : List String} (h : keys.Nodup) :
    duplicatesOf keys = [] := by
  rw [duplicatesOf_eq_filter, List.filter_eq_nil_iff]
  intro a _
  have := List.nodup_iff_count_le_one.mp h a
  simp only [decide_eq_true_eq]
  omega

theorem count_duplicatesOf {k : String} {keys : List String} (h : 1 < keys.count k) :
    (duplicatesOf keys).count k = 1 :=
  List.count_eq_one_of_mem (nodup_duplicatesOf keys) (mem_duplicatesOf.mpr h)

theorem parse_object_fst_eq_nil_of_nodup (jf : String)
    {pairs : List (String × PyVal)} (h : (pairs.map Prod.fst).Nodup) :
    (parse_object jf pairs).1 = [] := by
  unfold parse_object
  simp [duplicatesOf_eq_nil_of_nodup h]

/-! ### Helper lemmas about `dictInsert` and `pyDict` -/

theorem lookupKey_append (k : String) (l1 l2 : List (String × PyVal)) :
    lookupKey k (l1 ++ l2)
      = match lookupKey k l1 with
        | some v => some v
        | Option.none => lookupKey k l2 := by
  induction l1 with
  | nil => simp [lookupKey]
  | cons kv rest ih =>
    by_cases h : kv.1 = k <;> simp [lookupKey, h, ih]

theorem lookupKey_map_update_ne (k k' : String) (v : PyVal) (hkk : k ≠ k') :
    ∀ d : List (String × PyVal),
      lookupKey k (d.map (fun kv => if kv.1 = k' then (k', v) else kv))
        = lookupKey k d := by
  intro d
  induction d with
  | nil => rfl
  | cons kv rest ih =>
    by_cases h1 : kv.1 = k'
    · have h2 : kv.1 ≠ k := by rw [h1]; exact Ne.symm hkk
      simp [lookupKey, h1, h2, Ne.symm hkk, ih]
    · by_cases h2 : kv.1 = k <;> simp [lookupKey, h1, h2, hkk, ih]

theorem lookupKey_map_update_self (k' : String) (v : PyVal) :
    ∀ d : List (String × PyVal),
      d.any (fun kv => decide (kv.1 = k')) = true →
      lookupKey k' (d.map (fun kv => if kv.1 = k' then (k', v) else kv))
        = some v := by
  intro d
  induction d with
  | nil => intro h; simp at h
  | cons kv rest ih =>
    intro h
    by_cases h1 : kv.1 = k'
    · simp [lookupKey, h1]
    · have hrest : rest.any (fun kv => decide (kv.1 = k')) = true := by
        simpa [List.any_cons, h1] using h
      simp [lookupKey, h1, ih hrest]

theorem lookupKey_eq_none_of_not_mem_keys (k : String) :
    ∀ d : List (String × PyVal),
      d.any (fun kv => decide (kv.1 = k)) = false →
      lookupKey k d = Option.none := by
  intro d
  induction d with
  | nil => intro _; rfl
  | cons kv rest ih =>
    intro h
    simp only [List.any_cons, Bool.or_eq_false_iff, decide_eq_false_iff_not] at h
    simp [lookupKey, h.1, ih (by simpa using h.2)]

theorem lookupKey_dictInsert (k k' : String) (v : PyVal)
    (d : List (String × PyVal)) :
    lookupKey k (dictInsert d k' v)
      = if k = k' then some v else lookupKey k d := by
  unfold dictInsert
  by_cases hany : d.any (fun kv => decide (kv.1 = k')) = true
  · rw [if_pos hany]
    by_cases hkk : k = k'
    · subst hkk
      rw [if_pos rfl]
      exact lookupKey_map_update_self k v d hany
    · rw [if_neg hkk]
      exact lookupKey_map_update_ne k k' v hkk d
  · have hany' : d.any (fun kv => decide (kv.1 = k')) = false :=
      Bool.eq_false_iff.mpr hany
    rw [if_neg hany]
    rw [lookupKey_append]
    by_cases hkk : k = k'
    · subst hkk
      rw [lookupKey_eq_none_of_not_mem_keys k d hany']
      simp [lookupKey]
    · have : lookupKey k [(k', v)] = Option.none := by
        simp [lookupKey, Ne.symm hkk]
      cases hd : lookupKey k d <;> simp [hd, lookupKey, Ne.symm hkk, hkk]

theorem lookupKey_foldl_dictInsert (k : String) :
    ∀ (pairs d : List (String × PyVal)),
      lookupKey k (pairs.foldl (fun d kv => dictInsert d kv.1 kv.2) d)
        = match lookupKey k pairs.reverse with
          | some v => some v
          | Option.none => lookupKey k d := by
  intro pairs
  induction pairs with
  | nil => intro d; rfl
  | cons kv rest ih =>
    intro d
    rw [List.foldl_cons, ih (dictInsert d kv.1 kv.2), List.reverse_cons,
      lookupKey_append, lookupKey_dictInsert]
    cases hrev : lookupKey k rest.reverse with
    | some v => rfl
    | none =>
      by_cases hh : k = kv.1
      · rw [if_pos hh]
        simp [lookupKey, hh.symm]
      · rw [if_neg hh]
        have hne : kv.1 ≠ k := fun hc => hh hc.symm
        simp [lookupKey, hne]

theorem lookupKey_pyDict (k : String) (pairs : List (String × PyVal)) :
    lookupKey k (pyDict pairs) = lookupKey k pairs.reverse := by
  unfold pyDict
  rw [lookupKey_foldl_dictInsert]
  cases lookupKey k pairs.reverse <;> rfl

/-! ### Helper lemmas about the decoding traversal and the main loop -/

theorem runHookPairs_keys (jf : String) :
    ∀ pairs : List (String × RawJson),
      (runHookPairs jf pairs).2.map Prod.fst = pairs.map Prod.fst := by
  intro pairs
  induction pairs with
  | nil => simp [runHookPairs]
  | cons kv rest ih => simp [runHookPairs, ih]

theorem find_duplicate_keys_exc_none {env : Env} {jf : String}
    (h : ∀ msg, env jf ≠ FileOutcome.readError msg) :
    (find_duplicate_keys env jf).2 = Option.none := by
  unfold find_duplicate_keys
  cases henv : env jf with
  | readError msg => exact absurd henv (h msg)
  | parseError msg => rfl
  | parsed doc => rfl

theorem processFiles_no_readError (env : Env) :
    ∀ args : List String,
      (∀ a ∈ args, ∀ msg, env a ≠ FileOutcome.readError msg) →
      processFiles env args
        = (args.flatMap (fun a => (find_duplicate_keys env a).1), 0) := by
  intro args
  induction args with
  | nil => intro _; rfl
  | cons a rest ih =>
    intro h
    have hexc : (find_duplicate_keys env a).2 = Option.none :=
      find_duplicate_keys_exc_none (h a (List.mem_cons_self a rest))
    have hrest := ih (fun b hb msg => h b (List.mem_cons_of_mem a hb) msg)
    simp [processFiles, hexc, hrest]

/-! ### Concrete environments used in scenarios, counterexamples and witnesses -/

/-- A file system on which no path can be opened. -/
def envAllReadError : Env := fun _ =>
  FileOutcome.readError "No such file or directory"

/-- A file system on which every path parses to an object with a single key
and hence no duplicates. -/
def envClean : Env := fun _ =>
  FileOutcome.parsed (RawJson.obj [("y", RawJson.num 1)])

/-- A file system with one malformed file, `bad.json`; every other path
parses to the object written `{"a": 1, "b": 2, "a": 3}`. -/
def envScenario : Env := fun p =>
  if p = "bad.json" then
    FileOutcome.parseError "Expecting value: line 1 column 1 (char 0)"
  else
    FileOutcome.parsed (RawJson.obj
      [("a", RawJson.num 1), ("b", RawJson.num 2), ("a", RawJson.num 3)])

/-- A file system on which only `good.json` can be read (it parses to
`{"y": 1}`); every other path fails to open. -/
def envFirstUnreadable : Env := fun p =>
  if p = "good.json" then FileOutcome.parsed (RawJson.obj [("y", RawJson.num 1)])
  else FileOutcome.readError "No such file or directory"

/-! ### The claims -/

/-- C1, counterexample: the per-file scan DOES propagate an error to its
caller when the file cannot be opened or decoded — the `open`/`read` step
is outside the `try` block, so the read error is raised to `find_duplicate_keys`'s
caller instead of being caught and reported. -/
theorem scan_read_error_propagates :
    (find_duplicate_keys envAllReadError "missing.json").2
      = some "No such file or directory" := rfl

/-- C1, amended: as long as the file can be opened and decoded (no
`ReadError`), the per-file scan never propagates an error to its caller;
in particular a parse failure is caught and reported as console output
containing the file name and the underlying message. -/
theorem scan_no_error_propagation_unless_read_error (env : Env) (jf : String)
    (h : ∀ msg, env jf ≠ FileOutcome.readError msg) :
    (find_duplicate_keys env jf).2 = Option.none ∧
    (∀ msg, env jf = FileOutcome.parseError msg →
      find_duplicate_keys env jf
        = ([s!"Checking {jf}...", s!"Error parsing {jf}: {msg}"], Option.none)) := by
  refine ⟨find_duplicate_keys_exc_none h, ?_⟩
  intro msg hmsg
  unfold find_duplicate_keys
  rw [hmsg]

/-- Witness for C1's amended theorem, at a file whose content is malformed
but readable. -/
theorem scan_no_error_propagation_witness :
    (find_duplicate_keys (fun _ => FileOutcome.parseError "boom") "f.json").2
      = Option.none :=
  (scan_no_error_propagation_unless_read_error
    (fun _ => FileOutcome.parseError "boom") "f.json"
    (fun _ h => FileOutcome.noConfusion h)).1

/-- C2, counterexample: with one file argument naming an unreadable file,
the uncaught read error terminates the process with exit status 1, not 0. -/
theorem exit_status_one_on_unreadable_file :
    mainRun envAllReadError ["missing.json"]
      = (["Checking missing.json..."], 1) := rfl

/-- C2, amended: with one or more file arguments, the exit status is 0
provided every argument file can be opened and decoded; per-file parse
errors are reported only as console text and never reach the exit code. -/
theorem exit_status_zero_when_files_readable (env : Env) (args : List String)
    (h2 : args ≠ [])
    (h : ∀ a ∈ args, ∀ msg, env a ≠ FileOutcome.readError msg) :
    (mainRun env args).2 = 0 := by
  unfold mainRun
  rw [if_neg (by simpa [List.isEmpty_iff] using h2)]
  rw [processFiles_no_readError env args h]

/-- Witness for C2's amended theorem: a malformed but readable file still
yields exit status 0. -/
theorem exit_status_zero_when_files_readable_witness :
    (mainRun (fun _ => FileOutcome.parseError "boom") ["f.json"]).2 = 0 :=
  exit_status_zero_when_files_readable (fun _ => FileOutcome.parseError "boom")
    ["f.json"] (by decide) (fun _ _ _ h => FileOutcome.noConfusion h)

/-- C3: a parse failure is caught inside the file's processing step, a
diagnostic with the file name and the underlying error is printed, and the
remaining file arguments are still processed; in the two-file scenario the
malformed first file gets an error line and the well-formed second file
with a duplicate key still gets its duplicate report, with exit status 0. -/
theorem parse_failure_caught_and_reported (env : Env) (jf msg : String)
    (rest : List String) (h : env jf = FileOutcome.parseError msg) :
    find_duplicate_keys env jf
      = ([s!"Checking {jf}...", s!"Error parsing {jf}: {msg}"], Option.none) ∧
    processFiles env (jf :: rest)
      = (s!"Checking {jf}..." :: s!"Error parsing {jf}: {msg}"
          :: (processFiles env rest).1, (processFiles env rest).2) ∧
    mainRun envScenario ["bad.json", "good.json"]
      = (["Checking bad.json...",
          "Error parsing bad.json: Expecting value: line 1 column 1 (char 0)",
          "Checking good.json...",
          "File: good.json",
          "Found duplicate keys in an object: [a]"], 0) := by
  have h1 : find_duplicate_keys env jf
      = ([s!"Checking {jf}...", s!"Error parsing {jf}: {msg}"], Option.none) := by
    unfold find_duplicate_keys
    rw [h]
  refine ⟨h1, ?_, ?_⟩
  · simp [processFiles, h1]
  · simp [mainRun, processFiles, find_duplicate_keys, envScenario, runHook,
      runHookPairs, parse_object, duplicatesOf, counterItems, firstDedup,
      pyDict, dictInsert]
    exact ⟨rfl, rfl, rfl, rfl, rfl⟩

/-- Witness for C3, at a concrete malformed file followed by one further
argument. -/
theorem parse_failure_caught_and_reported_witness :
    find_duplicate_keys envScenario "bad.json"
      = (["Checking bad.json...",
          "Error parsing bad.json: Expecting value: line 1 column 1 (char 0)"],
         Option.none) :=
  (parse_failure_caught_and_reported envScenario "bad.json"
    "Expecting value: line 1 column 1 (char 0)" ["good.json"] rfl).1

/-- C4: an object whose immediate keys are all distinct (in particular any
object with zero or one keys) makes the hook print nothing; and a key
occurring at least twice appears exactly once in the hook's duplicate
list. -/
theorem duplicate_list_no_false_positives_and_no_repeats (jf : String)
    (pairs : List (String × PyVal)) :
    ((pairs.map Prod.fst).Nodup → (parse_object jf pairs).1 = []) ∧
    (∀ k, 2 ≤ (pairs.map Prod.fst).count k →
      (duplicatesOf (pairs.map Prod.fst)).count k = 1) := by
  refine ⟨fun h => parse_object_fst_eq_nil_of_nodup jf h, fun k hk => ?_⟩
  exact count_duplicatesOf (by omega)

/-- Witness for C4: a two-distinct-key object reports nothing, and a key
occurring twice is listed once. -/
theorem duplicate_list_no_false_positives_witness :
    (parse_object "w.json" [("a", PyVal.num 1), ("b", PyVal.num 2)]).1 = [] ∧
    (duplicatesOf ["a", "b", "a"]).count "a" = 1 :=
  ⟨(duplicate_list_no_false_positives_and_no_repeats "w.json"
      [("a", PyVal.num 1), ("b", PyVal.num 2)]).1 (by decide),
   (duplicate_list_no_false_positives_and_no_repeats "w.json"
      [("a", PyVal.num 1), ("b", PyVal.num 2), ("a", PyVal.num 3)]).2 "a" (by decide)⟩

/-- C5: the hook returns the object value obtained by collapsing duplicate
keys with last-write-wins semantics — looking up any key in the returned
dict yields the value of that key's last occurrence in the pair list; in
particular for `{"a": 1, "b": 2, "a": 3}` the collapsed value of `"a"` is
`3`. -/
theorem hook_returns_last_write_wins_dict (jf : String)
    (pairs : List (String × PyVal)) :
    (∀ k, lookupKey k (parse_object jf pairs).2 = lookupKey k pairs.reverse) ∧
    lookupKey "a" (parse_object jf
      [("a", PyVal.num 1), ("b", PyVal.num 2), ("a", PyVal.num 3)]).2
      = some (PyVal.num 3) := by
  constructor
  · intro k
    show lookupKey k (pyDict pairs) = lookupKey k pairs.reverse
    exact lookupKey_pyDict k pairs
  · rfl

/-- C6: the duplicate check applies independently to every object literal at
any nesting depth: an outer object with distinct keys contributes no report
lines of its own, decoding an array just concatenates the reports of its
elements in order, and in the scenario `[{"x":1,"x":2}, {"y":1}]` exactly
the first element's object triggers a report. -/
theorem nested_objects_checked_independently (jf : String)
    (pairs : List (String × RawJson)) (elems : List RawJson) :
    ((pairs.map Prod.fst).Nodup →
      (runHook jf (RawJson.obj pairs)).1 = (runHookPairs jf pairs).1) ∧
    ((runHook jf (RawJson.arr elems)).1 = (runHookList jf elems).1) ∧
    ((runHook "t.json" (RawJson.arr
        [RawJson.obj [("x", RawJson.num 1), ("x", RawJson.num 2)],
         RawJson.obj [("y", RawJson.num 1)]])).1
      = ["File: t.json", "Found duplicate keys in an object: [x]"]) := by
  refine ⟨?_, ?_, ?_⟩
  · intro h
    have hk : ((runHookPairs jf pairs).2.map Prod.fst).Nodup := by
      rw [runHookPairs_keys]
      exact h
    simp [runHook, parse_object_fst_eq_nil_of_nodup jf hk]
  · simp [runHook]
  · simp [runHook, runHookList, runHookPairs, parse_object, duplicatesOf,
      counterItems, firstDedup, pyDict, dictInsert]
    exact ⟨rfl, rfl⟩

/-- Witness for C6, at an outer object with one key wrapping an inner object
whose duplicate is still reported. -/
theorem nested_objects_checked_independently_witness :
    (runHook "n.json" (RawJson.obj
      [("outer", RawJson.obj [("x", RawJson.num 1), ("x", RawJson.num 2)])])).1
      = (runHookPairs "n.json"
          [("outer", RawJson.obj [("x", RawJson.num 1), ("x", RawJson.num 2)])]).1 :=
  (nested_objects_checked_independently "n.json"
    [("outer", RawJson.obj [("x", RawJson.num 1), ("x", RawJson.num 2)])] []).1
    (by decide)

/-- C7: with zero file arguments the program prints the usage message to
standard output and exits with status 1, touching no file. -/
theorem usage_message_and_exit_one_on_no_args (env : Env) :
    mainRun env [] = ([usageLine], 1) := rfl

/-- C8, counterexample: when the first argument names an unreadable file,
the uncaught read error aborts the loop, so the second file is never
attempted — not every file is attempted exactly once. -/
theorem later_file_not_attempted_after_read_error :
    mainRun envFirstUnreadable ["missing.json", "good.json"]
      = (["Checking missing.json..."], 1) ∧
    "Checking good.json..."
      ∉ (mainRun envFirstUnreadable ["missing.json", "good.json"]).1 := by
  exact ⟨rfl, by decide⟩

/-- C8, amended: with one or more arguments each file is attempted at most
once with no retry, and provided every argument file can be opened and
decoded, the files are processed independently and sequentially in
command-line order — the whole output is the in-order concatenation of
each file's own scan output, which depends on nothing but that file. -/
theorem files_processed_sequentially_when_readable (env : Env)
    (args : List String) (h2 : args ≠ [])
    (h : ∀ a ∈ args, ∀ msg, env a ≠ FileOutcome.readError msg) :
    mainRun env args
      = (args.flatMap (fun a => (find_duplicate_keys env a).1), 0) := by
  unfold mainRun
  rw [if_neg (by simpa [List.isEmpty_iff] using h2)]
  exact processFiles_no_readError env args h

/-- Witness for C8's amended theorem, on a single readable file. -/
theorem files_processed_sequentially_witness :
    mainRun envClean ["good.json"]
      = (["good.json"].flatMap (fun a => (find_duplicate_keys envClean a).1), 0) :=
  files_processed_sequentially_when_readable envClean ["good.json"] (by decide)
    (fun _ _ _ h => FileOutcome.noConfusion h)

/-- C9: duplicate detection depends only on the ordered key sequence of an
object, not on the values — two pair lists with equal key sequences make
the hook print the same lines and compute the same duplicate list, and one
triggers a report iff the other does. -/
theorem duplicate_report_depends_only_on_keys (jf : String)
    (ps qs : List (String × PyVal)) (h : ps.map Prod.fst = qs.map Prod.fst) :
    (parse_object jf ps).1 = (parse_object jf qs).1 ∧
    duplicatesOf (ps.map Prod.fst) = duplicatesOf (qs.map Prod.fst) ∧
    ((parse_object jf ps).1 = [] ↔ (parse_object jf qs).1 = []) := by
  have h2 : (parse_object jf ps).1 = (parse_object jf qs).1 := by
    simp only [parse_object]
    rw [h]
  exact ⟨h2, by rw [h], by rw [h2]⟩

/-- Witness for C9, at two single-pair lists with the same key and different
values. -/
theorem duplicate_report_depends_only_on_keys_witness :
    (parse_object "v.json" [("a", PyVal.num 1), ("a", PyVal.num 2)]).1
      = (parse_object "v.json" [("a", PyVal.str "s"), ("a", PyVal.none)]).1 :=
  (duplicate_report_depends_only_on_keys "v.json"
    [("a", PyVal.num 1), ("a", PyVal.num 2)]
    [("a", PyVal.str "s"), ("a", PyVal.none)] rfl).1

/-- C10: the hook's duplicate list contains exactly the keys occurring more
than once, listed in order of each duplicated key's first appearance among
the object's keys (insertion-ordered counting). -/
theorem duplicate_list_ordered_by_first_appearance
    (pairs : List (String × PyVal)) :
    (∀ k, k ∈ duplicatesOf (pairs.map Prod.fst)
        ↔ 1 < (pairs.map Prod.fst).count k) ∧
    (duplicatesOf (pairs.map Prod.fst)).Pairwise
      (fun a b => (pairs.map Prod.fst).indexOf a
        < (pairs.map Prod.fst).indexOf b) := by
  refine ⟨fun k => mem_duplicatesOf, ?_⟩
  rw [duplicatesOf_eq_filter]
  exact List.Pairwise.filter _ (pairwise_indexOf_firstDedup _)

end CheckDuplicates
